import Mathlib

/-!
Verification of the Face-recognition-API embedding-index core.

This file is a shallow embedding of the core modules of the repository:

* `src/models/vector_store.py` — the `VectorStore` wrapper around a ChromaDB
  collection (`add_embedding`, `search_similar`, `delete_embedding`);
* `src/services/person_service.py` — `PersonService.create_person`,
  `PersonService.find_person_by_face`, `PersonService.delete_person`;
* `src/services/face_service.py` — the embedding-normalization step of
  `FaceService.extract_embedding`;
* `src/models/person.py` — the `Person` record.

The external ChromaDB collection (a third-party storage engine, not part of
this repository) is modelled as an association list together with the
documented engine semantics for `PersistentClient` collections: `add` of an id that is
already present is skipped with a warning (no exception, the stored record is
kept); `get` returns the stored record; `delete` of an absent id is a no-op
(no exception); `query` returns candidate ids with cosine distances and
metadata, which we take as an input parameter since the ANN search itself is
outside the repository. Exceptions raised by the engine are modelled by
explicit `raises` flags: each wrapper method in `vector_store.py` catches all
exceptions and returns a failure value, and the flag selects that path.
Similarly, SQLAlchemy commit failures in `person_service.py` are modelled by
explicit failure flags selecting the `except SQLAlchemyError` path.
Filesystem side effects (saving/removing image files) have no bearing on the
claims and are not part of the observable state; the path strings themselves
are kept.

Embedding vectors are modelled as `List ℚ` (the similarity arithmetic
`similarity = 1 - distance` and the threshold comparison are exact here);
for the norm computation of `face_service.py`, which takes a square root,
vectors are `List ℝ`.
-/

namespace FaceAPI

/-- Metadata dict stored alongside an embedding, as built by
`PersonService.create_person` (`src/services/person_service.py` lines 67-73):
name, age, gender, nationality, person_id.  `person_id` is an `Option` because
a metadata dict returned from a query need not contain the key
(`find_person_by_face` checks "person_id" in match["metadata"]). -/
structure Metadata where
  name : String
  age : Int
  gender : String
  nationality : String
  person_id : Option String
deriving Repr, DecidableEq

/-- One record of the ChromaDB collection: the embedding vector and its
metadata, keyed externally by an id string. -/
structure EmbRecord where
  vec : List ℚ
  meta : Metadata
deriving Repr, DecidableEq

/-- The state of the ChromaDB collection: an association list from id to
record, in insertion order. -/
abbrev Collection := List (String × EmbRecord)

/-- Model of `collection.get(ids=[id])` for a single id: the stored record, if present. -/
def findRec (c : Collection) (id : String) : Option EmbRecord :=
  (c.find? (fun p => decide (p.1 = id))).map Prod.snd

/-- Model of `collection.add(ids=[id], embeddings=[..], metadatas=[..])` for a
single id, per the documented ChromaDB semantics: an id that already exists in
the collection is skipped (a warning is logged, no exception is raised, and
the previously stored record is kept unchanged); a fresh id is appended. -/
def addOne (c : Collection) (id : String) (r : EmbRecord) : Collection :=
  if (findRec c id).isSome then c else c ++ [(id, r)]

/-- Model of `collection.delete(ids=[id])` for a single id: removes the record
if present; deleting an absent id is a no-op (no exception). -/
def delKey (c : Collection) (id : String) : Collection :=
  c.filter (fun p => ! decide (p.1 = id))

/-- Embeds `VectorStore.add_embedding(person_id, embedding, metadata)`
(`src/models/vector_store.py` lines 36-66).  `raises` selects the
`except Exception` path (engine raised before any mutation): the method
returns `False`.  Otherwise it calls `collection.add`, re-reads the record
(`collection.get`), returns `False` if the stored embedding is null and `True`
otherwise.  Result: the returned boolean and the collection state after the
call. -/
def add_embedding (c : Collection) (raises : Bool) (person_id : String)
    (embedding : List ℚ) (metadata : Metadata) : Bool × Collection :=
  if raises then (false, c)
  else
    let c2 := addOne c person_id ⟨embedding, metadata⟩
    if (findRec c2 person_id).isSome then (true, c2) else (false, c2)

/-- One element of a ChromaDB query result, as consumed by
`VectorStore.search_similar`: an id, its cosine distance to the probe, and its
metadata. -/
structure QueryResult where
  id : String
  distance : ℚ
  metadata : Metadata
deriving Repr, DecidableEq

/-- One element of the match list returned by `VectorStore.search_similar`:
`{id, similarity, metadata}`. -/
structure MatchEntry where
  id : String
  similarity : ℚ
  metadata : Metadata
deriving Repr, DecidableEq

/-- Embeds `VectorStore.search_similar(embedding, threshold, limit)`
(`src/models/vector_store.py` lines 68-110).  The `collection.query` call is
external; `results` is the candidate list it returned (ids with ascending
cosine distances and metadata, at most `limit` of them).  `raises` selects the
`except Exception` path, returning `[]`.  Otherwise, for each result in order,
`similarity = 1 - distance` is computed and the entry is kept iff
`similarity >= threshold`. -/
def search_similar (raises : Bool) (results : List QueryResult)
    (threshold : ℚ) : List MatchEntry :=
  if raises then []
  else results.filterMap (fun r =>
    if threshold ≤ 1 - r.distance then
      some ⟨r.id, 1 - r.distance, r.metadata⟩
    else none)

/-- Embeds `VectorStore.delete_embedding(person_id)`
(`src/models/vector_store.py` lines 112-120).  `raises` selects the
`except Exception` path (returns `False`, collection unchanged); otherwise
`collection.delete` removes the id if present and the method returns `True`
unconditionally. -/
def delete_embedding (c : Collection) (raises : Bool) (person_id : String) :
    Bool × Collection :=
  if raises then (false, c) else (true, delKey c person_id)

/-- The `Person` SQLAlchemy model (`src/models/person.py`): the fields that
`create_person`, `find_person_by_face` and `delete_person` read or write.
The binary blob columns (photo_data, fingerprint data/mime types) and the
timestamps are never consulted by those code paths and are omitted. -/
structure Person where
  id : String
  name : String
  age : Int
  gender : String
  nationality : String
  photo_path : String
  vector_id : String
  fingerprint_right_path : Option String
  fingerprint_left_path : Option String
  fingerprint_thumbs_path : Option String
deriving Repr, DecidableEq

/-- The observable state `PersonService` mutates: the ChromaDB collection and
the SQL table of persons (`Person.query` rows, in insertion order). -/
structure SysState where
  index : Collection
  dbPersons : List Person
deriving Repr, DecidableEq

/-- Embeds `PersonService.create_person(name, age, gender, nationality, image_file,
fingerprints...)` (`src/services/person_service.py` lines 31-139).

External inputs are explicit parameters: `person_id` is the freshly generated
`uuid.uuid4()`; `extracted` is what `face_service.extract_embedding` returned
for the saved image (`none` = no face detected); `addRaises` is whether the
ChromaDB engine raises inside `add_embedding`; `commitFails` is whether
`db.session.commit()` raises `SQLAlchemyError` (the except block rolls the
session back, so the person row is not persisted).  Filename parameters model
`image_file.filename` and the fingerprint filenames.

The code path: on extraction failure return `None`; on `add_embedding`
returning `False` return `None`; otherwise build the `Person` row with
`id = person_id` and `vector_id = person_id` and commit it.  On commit failure
the except block returns `None` after rollback — it performs no call to
`vector_store.delete_embedding`, so the collection keeps whatever
`add_embedding` inserted. -/
def create_person (st : SysState) (person_id : String) (name : String)
    (age : Int) (gender nationality image_filename : String)
    (extracted : Option (List ℚ)) (addRaises commitFails : Bool)
    (fp_right fp_left fp_thumbs : Option String) : Option Person × SysState :=
  match extracted with
  | none => (none, st)
  | some embedding =>
    let metadata : Metadata :=
      ⟨name, age, gender, nationality, some person_id⟩
    let r := add_embedding st.index addRaises person_id embedding metadata
    if r.1 = false then (none, { st with index := r.2 })
    else
      let person : Person :=
        { id := person_id, name := name, age := age, gender := gender,
          nationality := nationality,
          photo_path := person_id ++ "_" ++ image_filename,
          vector_id := person_id,
          fingerprint_right_path :=
            fp_right.map (fun f => person_id ++ "_right_" ++ f),
          fingerprint_left_path :=
            fp_left.map (fun f => person_id ++ "_left_" ++ f),
          fingerprint_thumbs_path :=
            fp_thumbs.map (fun f => person_id ++ "_thumbs_" ++ f) }
      if commitFails then (none, { st with index := r.2 })
      else (some person, { index := r.2, dbPersons := st.dbPersons ++ [person] })

/-- Embeds `PersonService.delete_person(person_id)`
(`src/services/person_service.py` lines 358-397).

`delRaises` is whether the ChromaDB engine raises inside `delete_embedding`
(in which case that method returns `False` with the collection unchanged);
`dbFails` is whether `db.session.delete`/`commit` raises `SQLAlchemyError`
(rollback: the person row stays; the ChromaDB collection is not part of the
SQL transaction, so its state keeps whatever `delete_embedding` did).

The code looks the person up by id, returns `False` if absent, then calls
`self.vector_store.delete_embedding(person.vector_id)` WITHOUT inspecting its
return value, then deletes the SQL row and returns `True`. -/
def delete_person (st : SysState) (person_id : String)
    (delRaises dbFails : Bool) : Bool × SysState :=
  match st.dbPersons.find? (fun p => decide (p.id = person_id)) with
  | none => (false, st)
  | some person =>
    let index2 := (delete_embedding st.index delRaises person.vector_id).2
    if dbFails then (false, { st with index := index2 })
    else (true, { index := index2,
                  dbPersons :=
                    st.dbPersons.filter (fun p => ! decide (p.id = person_id)) })

/-- Per-candidate resolution of `find_person_by_face`
(`src/services/person_service.py` lines 175-243): for a match, try
(1) `Person.query.filter_by(id=match["id"]).first()`, then
(2) `Person.query.filter_by(vector_id=match["id"]).first()`, then
(3) if the match metadata carries "person_id",
    `Person.query.filter_by(id=metadata["person_id"]).first()`. -/
def resolveMatch (dbPersons : List Person) (m : MatchEntry) : Option Person :=
  match dbPersons.find? (fun p => decide (p.id = m.id)) with
  | some p => some p
  | none =>
    match dbPersons.find? (fun p => decide (p.vector_id = m.id)) with
    | some p => some p
    | none =>
      match m.metadata.person_id with
      | some mpid => dbPersons.find? (fun p => decide (p.id = mpid))
      | none => none

/-- The `for match in matches` loop of `find_person_by_face`: return on the
first match that resolves, paired with the similarity of that match. -/
def findLoop (dbPersons : List Person) : List MatchEntry → Option (Person × ℚ)
  | [] => none
  | m :: rest =>
    match resolveMatch dbPersons m with
    | some p => some (p, m.similarity)
    | none => findLoop dbPersons rest

/-- The structured result of `find_person_by_face`: found flag, resolved
person (the `person_dict` payload, reduced to the row), similarity, and the
diagnostic message of the not-found outcomes. -/
structure FindResult where
  found : Bool
  person : Option Person
  similarity : Option ℚ
  message : Option String
deriving Repr, DecidableEq

/-- Message of `find_person_by_face` when no face is detected
("Aucun visage detecte dans l image" in the source, transliterated). -/
def msgNoFace : String := "Aucun visage detecte dans l image"

/-- Message when `search_similar` returned no matches above threshold
("Aucune correspondance trouvée", transliterated). -/
def msgNoMatch : String := "Aucune correspondance trouvee"

/-- Message when matches existed but none resolved to a database row
("Personne non trouvée dans la base de données", transliterated). -/
def msgNotInDb : String := "Personne non trouvee dans la base de donnees"

/-- Embeds `PersonService.find_person_by_face(image_file, threshold)`
(`src/services/person_service.py` lines 141-261).  `extracted` is the
embedding `face_service.extract_embedding` produced for the probe image
(`none` = no face); `results` is what `collection.query` returned inside
`search_similar`; `searchRaises` is whether that engine call raises. -/
def find_person_by_face (dbPersons : List Person)
    (extracted : Option (List ℚ)) (results : List QueryResult)
    (threshold : ℚ) (searchRaises : Bool) : FindResult :=
  match extracted with
  | none => ⟨false, none, none, some msgNoFace⟩
  | some _emb =>
    let ms := search_similar searchRaises results threshold
    if ms.isEmpty then ⟨false, none, none, some msgNoMatch⟩
    else
      match findLoop dbPersons ms with
      | some pr => ⟨true, some pr.1, some pr.2, none⟩
      | none => ⟨false, none, none, some msgNotInDb⟩

/-- The normalization step of `FaceService.extract_embedding`
(`src/services/face_service.py` lines 56-64): the L2 norm of the raw
embedding, `np.linalg.norm(embedding)`. -/
noncomputable def l2norm (v : List ℝ) : ℝ :=
  Real.sqrt ((v.map (fun x => x * x)).sum)

/-- The normalization step of `FaceService.extract_embedding`
(`src/services/face_service.py` lines 56-64): if the norm is positive, divide
each component by it; otherwise pass the embedding through unchanged.  Image
loading and the InsightFace detector that produce the raw embedding are
external; this is the arithmetic the repository itself performs on the
detector output. -/
noncomputable def extract_embedding_normalize (v : List ℝ) : List ℝ :=
  if l2norm v > 0 then v.map (fun x => x / l2norm v) else v

/-- An arbitrary concrete metadata value, used in concrete evaluations. -/
def meta₀ : Metadata := ⟨"A", 1, "F", "FR", none⟩

/-- A concrete metadata value carrying `person_id = "p1"`, as `create_person`
would build it. -/
def metaP1 : Metadata := ⟨"A", 1, "F", "FR", some "p1"⟩

/-- A concrete person row with `id = vector_id = "p1"`, as `create_person`
would build it. -/
def personW : Person :=
  ⟨"p1", "A", 1, "F", "FR", "p1_f", "p1", none, none, none⟩

/-!  Theorems.  General lemmas about the embedded operations come first; the
claim theorems follow, one per claim, each preceded by its claim id. -/

/-- Evaluating `search_similar` without an engine error is: filter the results by
`threshold ≤ 1 - distance`, then package each survivor. -/
theorem search_similar_eq_filter_map (results : List QueryResult) (t : ℚ) :
    search_similar false results t =
      (results.filter (fun r => decide (t ≤ 1 - r.distance))).map
        (fun r => ⟨r.id, 1 - r.distance, r.metadata⟩) := by
  simp only [search_similar, Bool.false_eq_true, if_false]
  induction results with
  | nil => rfl
  | cons r rs ih =>
    by_cases h : t ≤ 1 - r.distance <;>
      simp [List.filterMap_cons, List.filter_cons, h, ih]

/-- Unfolding `findRec` on a cons cell. -/
theorem findRec_cons (p : String × EmbRecord) (c : Collection) (k : String) :
    findRec (p :: c) k = if p.1 = k then some p.2 else findRec c k := by
  by_cases h : p.1 = k
  · simp [findRec, List.find?_cons_of_pos, h]
  · simp [findRec, List.find?_cons_of_neg, h]

/-- Looking up a key at the end of the collection when it is absent from the
front. -/
theorem findRec_append_self (c : Collection) (k : String) (r : EmbRecord)
    (h : findRec c k = none) : findRec (c ++ [(k, r)]) k = some r := by
  induction c with
  | nil => simp [findRec_cons]
  | cons p ps ih =>
    rw [findRec_cons] at h
    rcases Classical.em (p.1 = k) with hpk | hpk
    · simp [hpk] at h
    · rw [List.cons_append, findRec_cons, if_neg hpk]
      exact ih (by simpa [hpk] using h)

/-- After `addOne` of a key not previously present, `findRec` returns the new
record. -/
theorem findRec_addOne_self (c : Collection) (k : String) (r : EmbRecord)
    (h : findRec c k = none) : findRec (addOne c k r) k = some r := by
  rw [addOne, h]
  simpa using findRec_append_self c k r h

/-- Applying `addOne` to a key that is already present leaves the collection
unchanged (ChromaDB skips duplicate ids). -/
theorem addOne_present (c : Collection) (k : String) (r r' : EmbRecord)
    (h : findRec c k = some r') : addOne c k r = c := by
  simp [addOne, h]

/-- After `delKey c k`, the key `k` is absent. -/
theorem findRec_delKey_self (c : Collection) (k : String) :
    findRec (delKey c k) k = none := by
  have h : ∀ x ∈ delKey c k, ¬ ((fun p => decide (p.1 = k)) x = true) := by
    intro x hx
    have h2 := (List.mem_filter.mp hx).2
    simp at h2 ⊢
    exact h2
  rw [findRec, List.find?_eq_none.mpr h]
  rfl

/-- C4: for every non-error query, `search_similar` returns exactly those
candidates of the underlying index result whose similarity `1 - distance` is
at least the threshold, in order; candidates with similarity strictly below
the threshold are discarded, and each returned entry carries the id, the
similarity, and the stored metadata. -/
theorem search_similar_threshold_filter (results : List QueryResult) (t : ℚ) :
    search_similar false results t =
      (results.filter (fun r => decide (t ≤ 1 - r.distance))).map
        (fun r => ⟨r.id, 1 - r.distance, r.metadata⟩) :=
  search_similar_eq_filter_map results t

/-- C6: threshold monotonicity — every entry returned by `search_similar` at
threshold `t` is also returned, with the same similarity score, at any lower
threshold `t'`. -/
theorem search_similar_threshold_monotone (results : List QueryResult)
    (t t' : ℚ) (hlt : t' < t) (m : MatchEntry)
    (hm : m ∈ search_similar false results t) :
    m ∈ search_similar false results t' := by
  rw [search_similar_eq_filter_map] at hm ⊢
  simp only [List.mem_map, List.mem_filter, decide_eq_true_eq] at hm ⊢
  obtain ⟨r, ⟨hr, hth⟩, rfl⟩ := hm
  exact ⟨r, ⟨hr, le_trans (le_of_lt hlt) hth⟩, rfl⟩

/-- Witness for C6 at a concrete input: the candidate at distance 0 is
returned at threshold 1 and hence also at threshold 0, with similarity 1. -/
theorem search_similar_threshold_monotone_witness :
    (0 : ℚ) < 1 ∧
    (⟨"a", 1, meta₀⟩ : MatchEntry) ∈ search_similar false [⟨"a", 0, meta₀⟩] 1 ∧
    (⟨"a", 1, meta₀⟩ : MatchEntry) ∈ search_similar false [⟨"a", 0, meta₀⟩] 0 :=
  ⟨by norm_num, by simp [search_similar, List.filterMap],
    search_similar_threshold_monotone [⟨"a", 0, meta₀⟩] 1 0 (by norm_num)
      ⟨"a", 1, meta₀⟩ (by simp [search_similar, List.filterMap])⟩

/-- C7: if the underlying index returns candidates in ascending distance
order, the matches returned by `search_similar` are in non-increasing
similarity order. -/
theorem search_similar_sorted_desc (results : List QueryResult) (t : ℚ)
    (h : (results.map (fun r => r.distance)).Pairwise (· ≤ ·)) :
    ((search_similar false results t).map (fun m => m.similarity)).Pairwise
      (fun a b => b ≤ a) := by
  rw [search_similar_eq_filter_map, List.map_map]
  have h1 : results.Pairwise (fun a b : QueryResult => a.distance ≤ b.distance) :=
    (List.pairwise_map).mp h
  have h2 : (results.filter (fun r => decide (t ≤ 1 - r.distance))).Pairwise
      (fun a b : QueryResult => a.distance ≤ b.distance) :=
    h1.sublist (List.filter_sublist results)
  rw [List.pairwise_map]
  exact h2.imp (by intro a b hab; simp only [Function.comp]; linarith)

/-- Witness for C7 at a concrete input: distances [0, 1] are ascending and
the similarities of the returned matches are non-increasing. -/
theorem search_similar_sorted_desc_witness :
    (([⟨"a", 0, meta₀⟩, ⟨"b", 1, meta₀⟩] :
        List QueryResult).map (fun r => r.distance)).Pairwise (· ≤ ·) ∧
    ((search_similar false [⟨"a", 0, meta₀⟩, ⟨"b", 1, meta₀⟩] 0).map
        (fun m => m.similarity)).Pairwise (fun a b => b ≤ a) :=
  ⟨by norm_num [List.pairwise_cons],
    search_similar_sorted_desc [⟨"a", 0, meta₀⟩, ⟨"b", 1, meta₀⟩] 0
      (by norm_num [List.pairwise_cons])⟩

/-- C8 counterexample: deleting the absent key "k" (empty collection) returns
exactly the same success flag `True` as a delete that removed a stored record,
so the result of `delete_embedding` does not inform the caller whether a
record existed. -/
theorem delete_embedding_absent_indistinguishable :
    (delete_embedding [] false "k").1 = true ∧
    (delete_embedding [("k", ⟨[1], meta₀⟩)] false "k").1 = true ∧
    (delete_embedding [] false "k").1 =
      (delete_embedding [("k", ⟨[1], meta₀⟩)] false "k").1 :=
  ⟨rfl, rfl, rfl⟩

/-- C8 (amended): `delete_embedding` on an absent key (including a second
delete of the same key) is not an error — the call returns `True`, deleting
twice equals deleting once, and after a delete the key is absent from the
collection — but the result does NOT inform the caller whether a record
existed: the returned flag is `True` whether or not the key was present. -/
theorem delete_embedding_idempotent (c : Collection) (k : String) :
    delete_embedding c false k = (true, delKey c k) ∧
    delKey (delKey c k) k = delKey c k ∧
    findRec (delKey c k) k = none ∧
    delete_embedding (delete_embedding c false k).2 false k =
      (true, (delete_embedding c false k).2) := by
  refine ⟨rfl, ?_, findRec_delKey_self c k, ?_⟩
  · simp [delKey, List.filter_filter]
  · simp [delete_embedding, delKey, List.filter_filter]

/-- C2 counterexample: inserting (k, [1]) into the empty collection and then
inserting (k, [2]) again via `add_embedding` reports success (`True`) for the
second insert — no `DuplicateKey` failure — while the stored vector for k
remains [1]. -/
theorem add_embedding_duplicate_counterexample :
    (add_embedding (add_embedding [] false "k" [1] meta₀).2 false "k" [2]
        meta₀).1 = true ∧
    findRec (add_embedding (add_embedding [] false "k" [1] meta₀).2 false "k"
        [2] meta₀).2 "k" = some ⟨[1], meta₀⟩ :=
  ⟨rfl, rfl⟩

/-- C2 (amended): after a successful insert of (k, v1) into a collection not
previously containing k, a second insert of (k, v2) via `add_embedding` also
reports success — the engine silently skips the duplicate id and the wrapper
surfaces no `DuplicateKey` error (its only outcomes are `True`/`False`) — and
the stored vector for k remains v1. -/
theorem add_embedding_duplicate_keeps_first (c : Collection) (k : String)
    (v1 v2 : List ℚ) (m1 m2 : Metadata) (hfresh : findRec c k = none) :
    (add_embedding c false k v1 m1).1 = true ∧
    findRec (add_embedding c false k v1 m1).2 k = some ⟨v1, m1⟩ ∧
    add_embedding (add_embedding c false k v1 m1).2 false k v2 m2 =
      (true, (add_embedding c false k v1 m1).2) ∧
    findRec (add_embedding (add_embedding c false k v1 m1).2 false k v2
        m2).2 k = some ⟨v1, m1⟩ := by
  have h1 : findRec (addOne c k ⟨v1, m1⟩) k = some ⟨v1, m1⟩ :=
    findRec_addOne_self c k ⟨v1, m1⟩ hfresh
  have hc1 : add_embedding c false k v1 m1 = (true, addOne c k ⟨v1, m1⟩) := by
    simp [add_embedding, h1]
  have h2 : addOne (addOne c k ⟨v1, m1⟩) k ⟨v2, m2⟩ = addOne c k ⟨v1, m1⟩ :=
    addOne_present _ k ⟨v2, m2⟩ ⟨v1, m1⟩ h1
  refine ⟨by rw [hc1], by rw [hc1]; exact h1, ?_, ?_⟩
  · rw [hc1]
    simp [add_embedding, h2, h1]
  · rw [hc1]
    simp [add_embedding, h2, h1]

/-- Witness for C2 (amended) at a concrete input: k = "k", v1 = [1],
v2 = [2], empty initial collection. -/
theorem add_embedding_duplicate_keeps_first_witness :
    findRec [] "k" = none ∧
    ((add_embedding [] false "k" [1] meta₀).1 = true ∧
     findRec (add_embedding [] false "k" [1] meta₀).2 "k" =
       some ⟨[1], meta₀⟩ ∧
     add_embedding (add_embedding [] false "k" [1] meta₀).2 false "k" [2]
         meta₀ = (true, (add_embedding [] false "k" [1] meta₀).2) ∧
     findRec (add_embedding (add_embedding [] false "k" [1] meta₀).2 false
         "k" [2] meta₀).2 "k" = some ⟨[1], meta₀⟩) :=
  ⟨rfl, add_embedding_duplicate_keeps_first [] "k" [1] [2] meta₀ meta₀ rfl⟩

/-- C1 counterexample: a concrete enrollment (empty initial state, fresh id
"p1") in which the index insertion succeeds and the record commit then fails:
`create_person` returns a failure and the database holds no person record,
but the just-inserted index entry is NOT deleted — it remains in the index. -/
theorem create_person_commit_failure_counterexample :
    (create_person ⟨[], []⟩ "p1" "A" 1 "F" "FR" "f" (some [1]) false true
        none none none).1 = none ∧
    (create_person ⟨[], []⟩ "p1" "A" 1 "F" "FR" "f" (some [1]) false true
        none none none).2.dbPersons = [] ∧
    findRec (create_person ⟨[], []⟩ "p1" "A" 1 "F" "FR" "f" (some [1]) false
        true none none none).2.index "p1" = some ⟨[1], metaP1⟩ :=
  ⟨rfl, rfl, rfl⟩

/-- C1 (amended): for every enrollment in which the embedding was
successfully inserted into the vector index (fresh key, engine does not
raise) and the subsequent commit of the person record fails, `create_person`
returns a failure (None) and the person table is unchanged, but it performs
NO compensating action: the just-inserted index entry remains in the index
with no backing person record. -/
theorem create_person_commit_failure_orphan (st : SysState)
    (pid name : String) (age : Int) (gender nationality fn : String)
    (emb : List ℚ) (fpR fpL fpT : Option String)
    (hfresh : findRec st.index pid = none) :
    (create_person st pid name age gender nationality fn (some emb) false
        true fpR fpL fpT).1 = none ∧
    (create_person st pid name age gender nationality fn (some emb) false
        true fpR fpL fpT).2.dbPersons = st.dbPersons ∧
    findRec (create_person st pid name age gender nationality fn (some emb)
        false true fpR fpL fpT).2.index pid =
      some ⟨emb, ⟨name, age, gender, nationality, some pid⟩⟩ := by
  have h1 : findRec (addOne st.index pid
      ⟨emb, ⟨name, age, gender, nationality, some pid⟩⟩) pid =
      some ⟨emb, ⟨name, age, gender, nationality, some pid⟩⟩ :=
    findRec_addOne_self _ _ _ hfresh
  have hadd : add_embedding st.index false pid emb
      ⟨name, age, gender, nationality, some pid⟩ =
      (true, addOne st.index pid
        ⟨emb, ⟨name, age, gender, nationality, some pid⟩⟩) := by
    simp [add_embedding, h1]
  refine ⟨?_, ?_, ?_⟩ <;> simp [create_person, hadd, h1]

/-- Witness for C1 (amended) at the concrete input of the counterexample. -/
theorem create_person_commit_failure_orphan_witness :
    findRec (⟨[], []⟩ : SysState).index "p1" = none ∧
    ((create_person ⟨[], []⟩ "p1" "A" 1 "F" "FR" "f" (some [1]) false true
        none none none).1 = none ∧
     (create_person ⟨[], []⟩ "p1" "A" 1 "F" "FR" "f" (some [1]) false true
        none none none).2.dbPersons = (⟨[], []⟩ : SysState).dbPersons ∧
     findRec (create_person ⟨[], []⟩ "p1" "A" 1 "F" "FR" "f" (some [1])
        false true none none none).2.index "p1" =
       some ⟨[1], ⟨"A", 1, "F", "FR", some "p1"⟩⟩) :=
  ⟨rfl, create_person_commit_failure_orphan ⟨[], []⟩ "p1" "A" 1 "F" "FR" "f"
    [1] none none none rfl⟩

/-- C3 counterexample: a concrete state with one enrolled person "p1" whose
index removal fails (the engine raises inside `delete_embedding`):
`delete_person` does not abort — it deletes the person record anyway and
reports success, while the index entry is still present. -/
theorem delete_person_counterexample :
    (delete_person ⟨[("p1", ⟨[1], metaP1⟩)], [personW]⟩ "p1" true
        false).1 = true ∧
    (delete_person ⟨[("p1", ⟨[1], metaP1⟩)], [personW]⟩ "p1" true
        false).2.dbPersons = [] ∧
    findRec (delete_person ⟨[("p1", ⟨[1], metaP1⟩)], [personW]⟩ "p1" true
        false).2.index "p1" = some ⟨[1], metaP1⟩ :=
  ⟨rfl, rfl, rfl⟩

/-- C3 (amended): `delete_person` removes the index entry before deleting the
person record — when the engine delete succeeds, the key is absent from the
index whether or not the subsequent record deletion commits — but the result
of the index removal is ignored: when index removal fails, the person record
is deleted anyway and `delete_person` reports success instead of aborting. -/
theorem delete_person_ignores_index_failure (st : SysState) (pid : String)
    (p : Person)
    (hp : st.dbPersons.find? (fun q => decide (q.id = pid)) = some p) :
    (∀ dbFails : Bool,
      findRec (delete_person st pid false dbFails).2.index p.vector_id =
        none) ∧
    (delete_person st pid true false).1 = true ∧
    (delete_person st pid true false).2.index = st.index ∧
    (delete_person st pid true false).2.dbPersons =
      st.dbPersons.filter (fun q => ! decide (q.id = pid)) := by
  refine ⟨?_, ?_, ?_, ?_⟩
  · intro dbFails
    cases dbFails <;> simp [delete_person, hp, delete_embedding,
      findRec_delKey_self]
  · simp [delete_person, hp, delete_embedding]
  · simp [delete_person, hp, delete_embedding]
  · simp [delete_person, hp, delete_embedding]

/-- Witness for C3 (amended) at the concrete input of the counterexample. -/
theorem delete_person_ignores_index_failure_witness :
    ([personW].find? (fun q => decide (q.id = "p1")) = some personW) ∧
    findRec (delete_person ⟨[("p1", ⟨[1], metaP1⟩)], [personW]⟩ "p1" false
        false).2.index personW.vector_id = none ∧
    (delete_person ⟨[("p1", ⟨[1], metaP1⟩)], [personW]⟩ "p1" true
        false).1 = true ∧
    (delete_person ⟨[("p1", ⟨[1], metaP1⟩)], [personW]⟩ "p1" true
        false).2.index = [("p1", ⟨[1], metaP1⟩)] ∧
    (delete_person ⟨[("p1", ⟨[1], metaP1⟩)], [personW]⟩ "p1" true
        false).2.dbPersons = [personW].filter (fun q => ! decide (q.id = "p1")) := by
  have h := delete_person_ignores_index_failure
    ⟨[("p1", ⟨[1], metaP1⟩)], [personW]⟩ "p1" personW rfl
  exact ⟨rfl, h.1 false, h.2.1, h.2.2.1, h.2.2.2⟩

/-- C10: every person successfully created by `create_person` has its
`vector_id` field equal to its `id` field, both set to the freshly generated
person_id, so the primary-id lookup and the vector_id alias lookup refer to
the same key for records enrolled by this system. -/
theorem create_person_vector_id_eq_id (st : SysState) (pid name : String)
    (age : Int) (gender nationality fn : String)
    (extracted : Option (List ℚ)) (aR cF : Bool)
    (fpR fpL fpT : Option String) (p : Person)
    (h : (create_person st pid name age gender nationality fn extracted aR cF
        fpR fpL fpT).1 = some p) :
    p.vector_id = p.id ∧ p.id = pid := by
  cases extracted with
  | none => simp [create_person] at h
  | some emb =>
    simp only [create_person, apply_ite Prod.fst] at h
    split at h
    · exact absurd h (by simp)
    · split at h
      · exact absurd h (by simp)
      · rw [Option.some_inj] at h
        subst h
        exact ⟨rfl, rfl⟩

/-- Witness for C10 at a concrete successful enrollment. -/
theorem create_person_vector_id_eq_id_witness :
    ((create_person ⟨[], []⟩ "p1" "A" 1 "F" "FR" "f" (some [1]) false false
        none none none).1 = some personW) ∧
    personW.vector_id = personW.id ∧ personW.id = "p1" := by
  have h : (create_person ⟨[], []⟩ "p1" "A" 1 "F" "FR" "f" (some [1]) false
      false none none none).1 = some personW := rfl
  exact ⟨h, create_person_vector_id_eq_id ⟨[], []⟩ "p1" "A" 1 "F" "FR" "f"
    (some [1]) false false none none none personW h⟩

/-- The match loop returns `none` exactly when no candidate resolves. -/
theorem findLoop_eq_none_iff (dbP : List Person) (ms : List MatchEntry) :
    findLoop dbP ms = none ↔ ∀ m ∈ ms, resolveMatch dbP m = none := by
  induction ms with
  | nil => simp [findLoop]
  | cons m rest ih =>
    cases h : resolveMatch dbP m with
    | some p => simp [findLoop, h, List.forall_mem_cons]
    | none => simp [findLoop, h, ih, List.forall_mem_cons]

/-- The match loop returns the first candidate, in list order, that resolves,
paired with the similarity of that candidate. -/
theorem findLoop_first (dbP : List Person) :
    ∀ (ms : List MatchEntry) (i : ℕ) (hi : i < ms.length) (p : Person),
      (∀ (j : ℕ) (hj : j < ms.length), j < i →
        resolveMatch dbP (ms.get ⟨j, hj⟩) = none) →
      resolveMatch dbP (ms.get ⟨i, hi⟩) = some p →
      findLoop dbP ms = some (p, (ms.get ⟨i, hi⟩).similarity)
  | [], i, hi, _, _, _ => absurd hi (by simp)
  | m :: rest, 0, hi, p, _, hres => by
      have hres' : resolveMatch dbP m = some p := hres
      simp [findLoop, hres']
  | m :: rest, i' + 1, hi, p, hprev, hres => by
      have hm : resolveMatch dbP m = none := hprev 0 (by simp) (by omega)
      have hi' : i' < rest.length := Nat.lt_of_succ_lt_succ hi
      have hres' : resolveMatch dbP (rest.get ⟨i', hi'⟩) = some p := hres
      have hrec := findLoop_first dbP rest i' hi' p
        (fun j hj hji => hprev (j + 1) (Nat.succ_lt_succ hj)
          (Nat.succ_lt_succ hji))
        hres'
      simpa [findLoop, hm] using hrec

/-- C5: for every face search whose thresholded candidate list `ms` is
non-empty, `find_person_by_face` tries, for each candidate in rank order,
(1) lookup by the candidate id as primary identifier, then (2) lookup by the
candidate id as the `vector_id` alias, then (3) lookup by the `person_id`
field of the candidate metadata, and returns the first record so resolved
together with the similarity of that candidate; if no candidate resolves it
reports found = false with a message distinct from the no-candidates
message. -/
theorem find_person_by_face_resolution (dbPersons : List Person)
    (emb : List ℚ) (results : List QueryResult) (t : ℚ)
    (ms : List MatchEntry) (hms : search_similar false results t = ms)
    (hne : ms ≠ []) :
    (∀ m p, dbPersons.find? (fun q => decide (q.id = m.id)) = some p →
        resolveMatch dbPersons m = some p) ∧
    (∀ m p, dbPersons.find? (fun q => decide (q.id = m.id)) = none →
        dbPersons.find? (fun q => decide (q.vector_id = m.id)) = some p →
        resolveMatch dbPersons m = some p) ∧
    (∀ m mpid, dbPersons.find? (fun q => decide (q.id = m.id)) = none →
        dbPersons.find? (fun q => decide (q.vector_id = m.id)) = none →
        m.metadata.person_id = some mpid →
        resolveMatch dbPersons m =
          dbPersons.find? (fun q => decide (q.id = mpid))) ∧
    (∀ (i : ℕ) (hi : i < ms.length) (p : Person),
        (∀ (j : ℕ) (hj : j < ms.length), j < i →
          resolveMatch dbPersons (ms.get ⟨j, hj⟩) = none) →
        resolveMatch dbPersons (ms.get ⟨i, hi⟩) = some p →
        find_person_by_face dbPersons (some emb) results t false =
          ⟨true, some p, some ((ms.get ⟨i, hi⟩).similarity), none⟩) ∧
    ((∀ m ∈ ms, resolveMatch dbPersons m = none) →
        find_person_by_face dbPersons (some emb) results t false =
          ⟨false, none, none, some msgNotInDb⟩ ∧ msgNotInDb ≠ msgNoMatch) := by
  have hempty : ms.isEmpty = false := by
    cases ms with
    | nil => exact absurd rfl hne
    | cons a l => rfl
  refine ⟨?_, ?_, ?_, ?_, ?_⟩
  · intro m p h
    simp [resolveMatch, h]
  · intro m p h1 h2
    simp [resolveMatch, h1, h2]
  · intro m mpid h1 h2 h3
    simp [resolveMatch, h1, h2, h3]
  · intro i hi p hprev hres
    have hloop := findLoop_first dbPersons ms i hi p hprev hres
    simp [find_person_by_face, hms, hempty, hloop]
  · intro hall
    have hloop : findLoop dbPersons ms = none :=
      (findLoop_eq_none_iff dbPersons ms).mpr hall
    refine ⟨?_, by decide⟩
    simp [find_person_by_face, hms, hempty, hloop]

/-- Witness for C5 at a concrete input: one enrolled person "p1", one
candidate at distance 0, threshold 1/2; the candidate resolves via the
primary-id lookup and is returned with similarity 1. -/
theorem find_person_by_face_resolution_witness :
    search_similar false [⟨"p1", 0, meta₀⟩] (1/2) = [⟨"p1", 1, meta₀⟩] ∧
    ([⟨"p1", 1, meta₀⟩] : List MatchEntry) ≠ [] ∧
    find_person_by_face [personW] (some [1]) [⟨"p1", 0, meta₀⟩] (1/2) false =
      ⟨true, some personW, some 1, none⟩ := by
  have hms : search_similar false [⟨"p1", 0, meta₀⟩] (1/2 : ℚ) =
      [⟨"p1", 1, meta₀⟩] := by
    norm_num [search_similar, List.filterMap_cons]
  have hne : ([⟨"p1", 1, meta₀⟩] : List MatchEntry) ≠ [] := by simp
  have happ := (find_person_by_face_resolution [personW] [1]
      [⟨"p1", 0, meta₀⟩] (1/2) [⟨"p1", 1, meta₀⟩] hms hne).2.2.2.1
  have hres : resolveMatch [personW]
      (([⟨"p1", 1, meta₀⟩] : List MatchEntry).get ⟨0, by simp⟩) =
      some personW := rfl
  have := happ 0 (by simp) personW
    (fun j hj hji => absurd hji (Nat.not_lt_zero j)) hres
  exact ⟨hms, hne, by simpa using this⟩

/-- Auxiliary: the sum of squares of a list scaled down by `n` is the sum of
squares divided by `n * n` (a field identity, valid also at `n = 0`). -/
theorem sum_sq_map_div (v : List ℝ) (n : ℝ) :
    ((v.map (fun x => x / n)).map (fun x => x * x)).sum =
      ((v.map (fun x => x * x)).sum) / (n * n) := by
  induction v with
  | nil => simp
  | cons x xs ih =>
    simp only [List.map_cons, List.sum_cons, ih]
    ring

/-- C9: the normalization step of `extract_embedding` divides the embedding
by its L2 norm whenever that norm is strictly positive — yielding a unit
vector — and passes the embedding through unchanged when the norm is zero,
so no division by zero ever occurs. -/
theorem extract_embedding_normalize_spec (v : List ℝ) :
    (0 < l2norm v →
      extract_embedding_normalize v = v.map (fun x => x / l2norm v) ∧
      l2norm (extract_embedding_normalize v) = 1) ∧
    (l2norm v = 0 → extract_embedding_normalize v = v) := by
  constructor
  · intro hpos
    have heq : extract_embedding_normalize v =
        v.map (fun x => x / l2norm v) := by
      simp [extract_embedding_normalize, hpos]
    refine ⟨heq, ?_⟩
    rw [heq]
    have hS : 0 < (v.map (fun x => x * x)).sum := Real.sqrt_pos.mp hpos
    have hstep : l2norm (v.map (fun x => x / l2norm v)) =
        Real.sqrt (((v.map (fun x => x * x)).sum) / (l2norm v * l2norm v)) := by
      rw [l2norm, sum_sq_map_div]
    rw [hstep,
      show l2norm v * l2norm v = (v.map (fun x => x * x)).sum from
        Real.mul_self_sqrt hS.le,
      div_self (ne_of_gt hS), Real.sqrt_one]
  · intro h0
    simp [extract_embedding_normalize, h0]

/-- Witness for C9 at concrete inputs: the vector [1] has norm 1 > 0 and is
normalized to a unit vector; the empty vector has norm 0 and is passed
through unchanged. -/
theorem extract_embedding_normalize_spec_witness :
    0 < l2norm [(1 : ℝ)] ∧
    (extract_embedding_normalize [(1 : ℝ)] =
        [(1 : ℝ)].map (fun x => x / l2norm [(1 : ℝ)]) ∧
      l2norm (extract_embedding_normalize [(1 : ℝ)]) = 1) ∧
    l2norm ([] : List ℝ) = 0 ∧
    extract_embedding_normalize ([] : List ℝ) = [] := by
  have h1 : l2norm [(1 : ℝ)] = 1 := by simp [l2norm]
  have h0 : l2norm ([] : List ℝ) = 0 := by simp [l2norm]
  exact ⟨by rw [h1]; norm_num,
    (extract_embedding_normalize_spec [(1 : ℝ)]).1 (by rw [h1]; norm_num),
    h0, (extract_embedding_normalize_spec ([] : List ℝ)).2 h0⟩

end FaceAPI
